import Mathlib

/-!
Verification of the Cistercian numeral codec (CistercianNumberVision).

The development shallowly embeds the two source modules:

* `cistercian_utils.py` — the encoder: `draw_digit`, `draw_cistercian_symbol`,
  `number_to_cistercian_image`.  A drawn glyph is represented by the ordered
  list of line segments handed to the raster collaborator (`cv2.line`); the
  raster primitives themselves are outside the core per the specification.
* `ocr.py` — the decoder: `preprocess_image`, `find_stem_and_quadrants`,
  `detect_features_in_quadrant`, `recognize_cistercian_numeral`.  The external
  OpenCV operations (connected components / contours, polyline approximation,
  resize, blur, thresholding) are modelled as oracle parameters carrying the
  data the code reads from them; all arithmetic done by the Python code itself
  is embedded directly.

Machine integers are modelled as `Int`/`Nat` (Python integers are unbounded),
and the floating-point quantities (aspect ratios, fill ratios, the
`arctan2`-based angle window) are modelled as exact rationals; the angle window
test `30 < |atan2(dy,dx)|*180/pi < 60 or 120 < ... < 150` is expressed by the
equivalent tangent inequalities `dx^2 < 3*dy^2 ∧ dy^2 < 3*dx^2` (valid for
`dx ≠ 0` by monotonicity of `tan` on the relevant intervals).
-/

namespace Cistercian

/-- A straight line segment as passed to `cv2.line`: endpoints in pixel
coordinates.  Thickness and colour are fixed constants in the source
(`line_thickness = 3`, colour 0) and carry no information. -/
structure Seg where
  x1 : Int
  y1 : Int
  x2 : Int
  y2 : Int
deriving DecidableEq, Repr

/-- The four quadrant roles around the stem. -/
inductive Quadrant
  | topLeft
  | topRight
  | bottomLeft
  | bottomRight
deriving DecidableEq, Repr

/-- Horizontal direction sign, from `draw_digit`:
`x_dir = 1 if 'right' in quadrant else -1`. -/
def dirX : Quadrant → Int
  | .topRight | .bottomRight => 1
  | .topLeft | .bottomLeft => -1

/-- Vertical direction sign, from `draw_digit`:
`y_dir = 1 if 'bottom' in quadrant else -1`. -/
def dirY : Quadrant → Int
  | .bottomLeft | .bottomRight => 1
  | .topLeft | .topRight => -1

/-- Embedding of `draw_digit` (cistercian_utils.py lines 80-164): the ordered
list of segments drawn for `digit` anchored at `(cx, y)` with direction signs
`(xd, yd)` and `symbol_size = 50`.  Digit 0 (and any digit outside 0-9, which
falls through every `elif`) draws nothing. -/
def drawDigit (digit : Nat) (cx y xd yd : Int) : List Seg :=
  let ex : Int := cx + xd * 50
  let vy : Int := y - yd * 50
  match digit with
  | 1 => [⟨cx, y, ex, y⟩]
  | 2 => [⟨cx, vy, ex, vy⟩]
  | 3 => [⟨cx, y, ex, vy⟩]
  | 4 => [⟨cx, vy, ex, y⟩]
  | 5 => [⟨cx, vy, ex, y⟩, ⟨cx, y, ex, y⟩]
  | 6 => [⟨ex, y, ex, vy⟩]
  | 7 => [⟨cx, y, ex, y⟩, ⟨ex, y, ex, vy⟩]
  | 8 => [⟨cx, vy, ex, vy⟩, ⟨ex, y, ex, vy⟩]
  | 9 => [⟨cx, y, ex, y⟩, ⟨ex, y, ex, vy⟩, ⟨ex, vy, cx, vy⟩]
  | _ => []

/-- Embedding of `draw_cistercian_symbol` (cistercian_utils.py lines 34-78) on
a canvas of the given dimensions.  It validates the range, then returns the
stem segment followed by the digit strokes: units at top-right, tens at
top-left, hundreds at bottom-right, thousands at bottom-left.  The Python
`int(height // 1.5)` equals `2 * height / 3` rounded down, which is
`2 * height / 3` in integer division (exact at the canvas height 400 used by
the callers). -/
def drawSymbol (height width : Nat) (number : Int) : Except String (List Seg) :=
  if number < 0 ∨ number > 9999 then
    Except.error "Number must be between 0 and 9999"
  else
    let n := number.toNat
    let cx : Int := (width : Int) / 2
    let cy : Int := (height : Int) / 2
    let stemH : Int := 2 * (height : Int) / 3
    let stemTop : Int := cy - stemH / 2
    let stemBottom : Int := cy + stemH / 2
    Except.ok (⟨cx, stemTop, cx, stemBottom⟩ ::
      (drawDigit (n % 10) cx stemTop (dirX .topRight) (dirY .topRight) ++
       drawDigit (n / 10 % 10) cx stemTop (dirX .topLeft) (dirY .topLeft) ++
       drawDigit (n / 100 % 10) cx stemBottom (dirX .bottomRight) (dirY .bottomRight) ++
       drawDigit (n / 1000 % 10) cx stemBottom (dirX .bottomLeft) (dirY .bottomLeft)))

/-- Embedding of the encoding entry point `number_to_cistercian_image`
(cistercian_utils.py lines 172-187) at the stroke level: it validates the
range itself and draws on a fresh 300x400 canvas. -/
def encode (number : Int) : Except String (List Seg) :=
  drawSymbol 400 300 number

/-- The stem segment on the canonical 300x400 canvas:
`cx = 150`, `stem_top = 67`, `stem_bottom = 333`. -/
def stemSeg : Seg := ⟨150, 67, 150, 333⟩

/-- Stroke set of a digit in the top-right (units) quadrant of the canonical
canvas. -/
def segsTR (d : Nat) : List Seg := drawDigit d 150 67 (dirX .topRight) (dirY .topRight)

/-- Stroke set of a digit in the top-left (tens) quadrant of the canonical
canvas. -/
def segsTL (d : Nat) : List Seg := drawDigit d 150 67 (dirX .topLeft) (dirY .topLeft)

/-- Stroke set of a digit in the bottom-right (hundreds) quadrant of the
canonical canvas. -/
def segsBR (d : Nat) : List Seg := drawDigit d 150 333 (dirX .bottomRight) (dirY .bottomRight)

/-- Stroke set of a digit in the bottom-left (thousands) quadrant of the
canonical canvas. -/
def segsBL (d : Nat) : List Seg := drawDigit d 150 333 (dirX .bottomLeft) (dirY .bottomLeft)

/-- Unfolding of `encode` in terms of the canonical per-quadrant stroke sets. -/
theorem encode_eq (z : Int) :
    encode z = if z < 0 ∨ z > 9999 then
      Except.error "Number must be between 0 and 9999"
    else
      Except.ok (stemSeg ::
        (segsTR (z.toNat % 10) ++ segsTL (z.toNat / 10 % 10) ++
         segsBR (z.toNat / 100 % 10) ++ segsBL (z.toNat / 1000 % 10))) := by
  unfold encode drawSymbol segsTR segsTL segsBR segsBL stemSeg
  rfl

/-- The canonical render of `n`: the stroke list produced by `encode` on the
canonical 300x400 canvas (empty list for out-of-range input, which cannot
occur for `n ≤ 9999`). -/
def canonicalRender (n : Nat) : List Seg :=
  (encode (n : Int)).toOption.getD []

theorem canonicalRender_eq (n : Nat) (h : n ≤ 9999) :
    canonicalRender n = stemSeg ::
      (segsTR (n % 10) ++ segsTL (n / 10 % 10) ++
       segsBR (n / 100 % 10) ++ segsBL (n / 1000 % 10)) := by
  have hc : ¬((n : Int) < 0 ∨ (n : Int) > 9999) := by
    push_neg
    constructor
    · exact Int.natCast_nonneg n
    · exact_mod_cast h
  unfold canonicalRender
  rw [encode_eq, if_neg hc]
  rfl

/-- Horizontal mirror about the stem column `cx`: x-coordinates are negated
about the stem, y-coordinates are unchanged. -/
def mirrorSeg (cx : Int) (s : Seg) : Seg :=
  ⟨2 * cx - s.x1, s.y1, 2 * cx - s.x2, s.y2⟩

/-- C3: encode fails with the range error exactly outside [0,9999]; every
in-range input produces a stroke list and no error.  The range check is the
only failure path of `draw_cistercian_symbol` / `number_to_cistercian_image`. -/
theorem claim3_encode_range_error (z : Int) :
    ((z < 0 ∨ z > 9999) → encode z = Except.error "Number must be between 0 and 9999")
    ∧ (0 ≤ z → z ≤ 9999 → ∃ l, encode z = Except.ok l) := by
  constructor
  · intro h
    rw [encode_eq, if_pos h]
  · intro h1 h2
    rw [encode_eq, if_neg (by omega)]
    exact ⟨_, rfl⟩

/-- Witness for C3 at the concrete inputs -5 (out of range) and 123 (in
range). -/
theorem claim3_witness :
    encode (-5) = Except.error "Number must be between 0 and 9999"
    ∧ ∃ l, encode 123 = Except.ok l :=
  ⟨(claim3_encode_range_error (-5)).1 (Or.inl (by norm_num)),
   (claim3_encode_range_error 123).2 (by norm_num) (by norm_num)⟩

/-- C9: for every digit 1-9, the stroke set drawn at role TopRight is the
horizontal mirror (x negated about the stem) of the stroke set drawn at
TopLeft, and the BottomRight stroke set likewise mirrors the BottomLeft one,
at any stem column and anchor heights. -/
theorem claim9_mirror_law (d : Nat) (h1 : 1 ≤ d) (h9 : d ≤ 9) (cx ytop ybot : Int) :
    drawDigit d cx ytop (dirX .topRight) (dirY .topRight)
      = (drawDigit d cx ytop (dirX .topLeft) (dirY .topLeft)).map (mirrorSeg cx)
    ∧ drawDigit d cx ybot (dirX .bottomRight) (dirY .bottomRight)
      = (drawDigit d cx ybot (dirX .bottomLeft) (dirY .bottomLeft)).map (mirrorSeg cx) := by
  interval_cases d <;>
    exact ⟨by simp [drawDigit, dirX, dirY, mirrorSeg]; omega,
           by simp [drawDigit, dirX, dirY, mirrorSeg]; omega⟩

/-!
Exact-match fast path (spec section 4.5).  The repository's sources contain
only the reference-set generation pass (`generate_all_cistercian_templates`,
cistercian_utils.py lines 189-203, which renders every value 1..9999); the
hash index itself is not under src/, so it is modelled from the spec below.
To prove that the exact lookup recovers `n` we first show that the canonical
render determines `n`, via a stroke-level inverse: each quadrant's strokes are
isolated by their position relative to the stem column x = 150 and the centre
line y = 200, and the per-quadrant digit-to-strokes table is injective.
-/

/-- Position predicate satisfied by exactly the top-right quadrant's strokes
on the canonical canvas (strictly right of the stem column, above centre).
The stem segment itself fails all four predicates. -/
def quadPredTR (s : Seg) : Bool :=
  (max s.x1 s.x2 > 150) && (max s.y1 s.y2 ≤ 200)

/-- Position predicate for top-left quadrant strokes. -/
def quadPredTL (s : Seg) : Bool :=
  (min s.x1 s.x2 < 150) && (max s.y1 s.y2 ≤ 200)

/-- Position predicate for bottom-right quadrant strokes. -/
def quadPredBR (s : Seg) : Bool :=
  (max s.x1 s.x2 > 150) && (min s.y1 s.y2 ≥ 200)

/-- Position predicate for bottom-left quadrant strokes. -/
def quadPredBL (s : Seg) : Bool :=
  (min s.x1 s.x2 < 150) && (min s.y1 s.y2 ≥ 200)

/-- Invert a per-quadrant digit-to-strokes table on its image (0 for a miss). -/
def digitOf (f : Nat → List Seg) (l : List Seg) : Nat :=
  ((List.range 10).find? (fun d => decide (f d = l))).getD 0

/-- Recover the encoded value from a canonical stroke list (verification
artifact used to establish injectivity of `canonicalRender`; not part of the
source). -/
def decodeSegs (l : List Seg) : Nat :=
  1000 * digitOf segsBL (l.filter quadPredBL)
    + 100 * digitOf segsBR (l.filter quadPredBR)
    + 10 * digitOf segsTL (l.filter quadPredTL)
    + digitOf segsTR (l.filter quadPredTR)

theorem stem_filters :
    quadPredTR stemSeg = false ∧ quadPredTL stemSeg = false
    ∧ quadPredBR stemSeg = false ∧ quadPredBL stemSeg = false := by decide

theorem filter_predTR : ∀ d : Nat, d < 10 →
    (segsTR d).filter quadPredTR = segsTR d ∧ (segsTL d).filter quadPredTR = []
    ∧ (segsBR d).filter quadPredTR = [] ∧ (segsBL d).filter quadPredTR = [] := by decide

theorem filter_predTL : ∀ d : Nat, d < 10 →
    (segsTL d).filter quadPredTL = segsTL d ∧ (segsTR d).filter quadPredTL = []
    ∧ (segsBR d).filter quadPredTL = [] ∧ (segsBL d).filter quadPredTL = [] := by decide

theorem filter_predBR : ∀ d : Nat, d < 10 →
    (segsBR d).filter quadPredBR = segsBR d ∧ (segsTR d).filter quadPredBR = []
    ∧ (segsTL d).filter quadPredBR = [] ∧ (segsBL d).filter quadPredBR = [] := by decide

theorem filter_predBL : ∀ d : Nat, d < 10 →
    (segsBL d).filter quadPredBL = segsBL d ∧ (segsTR d).filter quadPredBL = []
    ∧ (segsTL d).filter quadPredBL = [] ∧ (segsBR d).filter quadPredBL = [] := by decide

theorem digitOf_TR : ∀ d : Nat, d < 10 → digitOf segsTR (segsTR d) = d := by decide

theorem digitOf_TL : ∀ d : Nat, d < 10 → digitOf segsTL (segsTL d) = d := by decide

theorem digitOf_BR : ∀ d : Nat, d < 10 → digitOf segsBR (segsBR d) = d := by decide

theorem digitOf_BL : ∀ d : Nat, d < 10 → digitOf segsBL (segsBL d) = d := by decide

/-- The canonical render determines the encoded value. -/
theorem decodeSegs_canonicalRender (n : Nat) (h : n ≤ 9999) :
    decodeSegs (canonicalRender n) = n := by
  have hu : n % 10 < 10 := Nat.mod_lt _ (by norm_num)
  have ht : n / 10 % 10 < 10 := Nat.mod_lt _ (by norm_num)
  have hh : n / 100 % 10 < 10 := Nat.mod_lt _ (by norm_num)
  have hth : n / 1000 % 10 < 10 := Nat.mod_lt _ (by norm_num)
  rw [canonicalRender_eq n h]
  unfold decodeSegs
  rw [List.filter_cons_of_neg (by decide), List.filter_cons_of_neg (by decide),
      List.filter_cons_of_neg (by decide), List.filter_cons_of_neg (by decide)]
  simp only [List.filter_append]
  rw [(filter_predTR _ hu).1, (filter_predTR _ ht).2.1, (filter_predTR _ hh).2.2.1,
      (filter_predTR _ hth).2.2.2,
      (filter_predTL _ ht).1, (filter_predTL _ hu).2.1, (filter_predTL _ hh).2.2.1,
      (filter_predTL _ hth).2.2.2,
      (filter_predBR _ hh).1, (filter_predBR _ hu).2.1, (filter_predBR _ ht).2.2.1,
      (filter_predBR _ hth).2.2.2,
      (filter_predBL _ hth).1, (filter_predBL _ hu).2.1, (filter_predBL _ ht).2.2.1,
      (filter_predBL _ hh).2.2.2]
  simp only [List.append_nil, List.nil_append]
  rw [digitOf_TR _ hu, digitOf_TL _ ht, digitOf_BR _ hh, digitOf_BL _ hth]
  omega

/-- Helper: `find?` returns the unique element of the list satisfying the
predicate. -/
theorem find_unique {α : Type _} (p : α → Bool) (l : List α) (a : α)
    (ha : a ∈ l) (hpa : p a = true) (hU : ∀ b ∈ l, p b = true → b = a) :
    l.find? p = some a := by
  induction l with
  | nil => cases ha
  | cons x xs ih =>
    by_cases hx : p x = true
    · have hxa : x = a := hU x (List.mem_cons_self x xs) hx
      rw [List.find?_cons_of_pos _ hx, hxa]
    · rw [List.find?_cons_of_neg _ hx]
      rcases List.mem_cons.mp ha with hax | hmem
      · exact absurd (hax ▸ hpa) hx
      · exact ih hmem (fun b hb hpb => hU b (List.mem_cons_of_mem _ hb) hpb)

/-- Modelled from the spec: the ExactMatchIndex fast path (spec section 4.5),
which is not present under src/ (only the reference-set generation pass is).
Following the spec's words: `build` maps the content hash of each reference
render of the values 1..9999 (the range of `generate_all_cistercian_templates`)
to its value, and `lookup` hashes the input the same way and performs an exact
map lookup; the content hash is order-sensitive over the exact content, so it
is modelled as the content itself.  A hash miss degrades to the fallback value
0 (spec section 7). -/
def lookupFast (l : List Seg) : Nat :=
  (((List.range 9999).map (fun i => i + 1)).find?
    (fun m => decide (canonicalRender m = l))).getD 0

/-- C1: for every n in [0,9999], encoding to the canonical render and then
decoding via the ExactMatchIndex fast path returns n.  Values 1..9999 hit
their own hash entry (renders are injective); 0 is not in the reference set,
and its hash miss falls back to 0 = n. -/
theorem claim1_exact_round_trip (n : Nat) (h : n ≤ 9999) :
    lookupFast (canonicalRender n) = n := by
  unfold lookupFast
  by_cases h0 : n = 0
  · subst h0
    have hnone : ((List.range 9999).map (fun i => i + 1)).find?
        (fun m => decide (canonicalRender m = canonicalRender 0)) = none := by
      rw [List.find?_eq_none]
      intro m hm
      obtain ⟨i, hi, rfl⟩ := List.mem_map.mp hm
      have hi9 : i + 1 ≤ 9999 := List.mem_range.mp hi
      simp only [decide_eq_true_eq]
      intro heq
      have := decodeSegs_canonicalRender (i + 1) hi9
      rw [heq, decodeSegs_canonicalRender 0 (by norm_num)] at this
      omega
    rw [hnone]
    rfl
  · have hsome : ((List.range 9999).map (fun i => i + 1)).find?
        (fun m => decide (canonicalRender m = canonicalRender n)) = some n := by
      apply find_unique
      · exact List.mem_map.mpr ⟨n - 1, List.mem_range.mpr (by omega), by omega⟩
      · simp
      · intro b hb
        obtain ⟨i, hi, rfl⟩ := List.mem_map.mp hb
        have hi9 : i + 1 ≤ 9999 := List.mem_range.mp hi
        simp only [decide_eq_true_eq]
        intro heq
        have h1 := decodeSegs_canonicalRender (i + 1) hi9
        rw [heq, decodeSegs_canonicalRender n h] at h1
        omega
    rw [hsome]
    rfl

/-- Witness for C1 at the concrete value 1234. -/
theorem claim1_witness :
    (1234 : Nat) ≤ 9999 ∧ lookupFast (canonicalRender 1234) = 1234 :=
  ⟨by norm_num, claim1_exact_round_trip 1234 (by norm_num)⟩

/-!
Decoder embedding (ocr.py).  A binary raster is a grayscale pixel grid; the
external OpenCV contour extraction is an oracle parameter `findC` returning,
for an image, the list of contours together with the attributes the Python
code reads off each contour: its point set, its bounding rectangle
(`cv2.boundingRect`), its area (`cv2.contourArea`), and the polyline
approximation computed by `cv2.approxPolyDP` at `epsilon = 0.02 * arcLength`.
-/

/-- A single-channel image: `pix y x` is the value of the pixel in row `y`,
column `x`. -/
structure GrayImg where
  height : Nat
  width : Nat
  pix : Nat → Nat → Nat

/-- Sum of all pixel values (`np.sum(quadrant_img)`). -/
def imgSum (img : GrayImg) : Nat :=
  (Finset.range img.height).sum fun y => (Finset.range img.width).sum fun x => img.pix y x

/-- Number of foreground pixels (`np.sum(quadrant_img > 0)`). -/
def countPos (img : GrayImg) : Nat :=
  (Finset.range img.height).sum fun y =>
    (Finset.range img.width).sum fun x => if img.pix y x > 0 then 1 else 0

/-- The sub-image `binary_image[y1:y2, x1:x2]`. -/
def cropImg (img : GrayImg) (x1 y1 x2 y2 : Nat) : GrayImg :=
  ⟨y2 - y1, x2 - x1, fun y x => img.pix (y1 + y) (x1 + x)⟩

/-- Data the Python code reads from one `cv2.findContours` contour.  Contour
extraction itself is an external collaborator; `rect` is the contour's
`cv2.boundingRect` as `(x, y, w, h)`, `area` its `cv2.contourArea`, and
`approx` the point list of `cv2.approxPolyDP(contour, 0.02 * arcLength, True)`. -/
structure PyContour where
  points : List (Nat × Nat)
  rect : Nat × Nat × Nat × Nat
  area : ℚ
  approx : List (Int × Int)

/-- Concatenation of all contour point arrays
(`np.concatenate([cnt for cnt in contours])`). -/
def allPoints (cs : List PyContour) : List (Nat × Nat) :=
  cs.foldr (fun c acc => c.points ++ acc) []

/-- Embedding of `cv2.boundingRect` on a point set: `(min_x, min_y, w, h)`
with `w = max_x - min_x + 1` and `h = max_y - min_y + 1`.  The empty case
returns a degenerate zero rectangle (the source never reaches it: OpenCV
contours are nonempty). -/
def boundingRect (pts : List (Nat × Nat)) : Nat × Nat × Nat × Nat :=
  match pts with
  | [] => (0, 0, 0, 0)
  | p :: rest =>
    let minx := rest.foldl (fun a q => min a q.1) p.1
    let maxx := rest.foldl (fun a q => max a q.1) p.1
    let miny := rest.foldl (fun a q => min a q.2) p.2
    let maxy := rest.foldl (fun a q => max a q.2) p.2
    (minx, miny, maxx - minx + 1, maxy - miny + 1)

/-- Result of `find_stem_and_quadrants`: the stem line and the four quadrant
boxes, each as `(x1, y1, x2, y2)`. -/
structure SegResult where
  stem : Nat × Nat × Nat × Nat
  topLeftBox : Nat × Nat × Nat × Nat
  topRightBox : Nat × Nat × Nat × Nat
  bottomLeftBox : Nat × Nat × Nat × Nat
  bottomRightBox : Nat × Nat × Nat × Nat
deriving DecidableEq, Repr

/-- Embedding of `find_stem_and_quadrants` (ocr.py lines 69-144).  The union
bounding box of all contours is used unless there are no contours or the box
is degenerate (width or height below 20), in which case the whole raster is
the box; the box is then split at `stem_x = center_x` and `center_y`. -/
def findStemAndQuadrants (findC : GrayImg → List PyContour) (img : GrayImg) : SegResult :=
  let W := img.width
  let H := img.height
  let box : Nat × Nat × Nat × Nat :=
    match findC img with
    | [] => (0, 0, W, H)
    | cs =>
      let r := boundingRect (allPoints cs)
      if r.2.2.1 < 20 ∨ r.2.2.2 < 20 then (0, 0, W, H) else r
  let x := box.1
  let y := box.2.1
  let w := box.2.2.1
  let h := box.2.2.2
  let cx := x + w / 2
  let cy := y + h / 2
  { stem := (cx, y, cx, y + h)
    topLeftBox := (x, y, cx, cy)
    topRightBox := (cx, y, x + w, cy)
    bottomLeftBox := (x, cy, cx, y + h)
    bottomRightBox := (cx, cy, x + w, y + h) }

/-- The whole-raster fallback segmentation: the entire image split at its
midpoints. -/
def fullSplit (h w : Nat) : SegResult :=
  { stem := (w / 2, 0, w / 2, h)
    topLeftBox := (0, 0, w / 2, h / 2)
    topRightBox := (w / 2, 0, w, h / 2)
    bottomLeftBox := (0, h / 2, w / 2, h)
    bottomRightBox := (w / 2, h / 2, w, h) }

/-- Python's `str` on a 4-tuple of integers, e.g. `"(0, 200, 150, 400)"`. -/
def pyStrTuple (c : Nat × Nat × Nat × Nat) : String :=
  "(" ++ toString c.1 ++ ", " ++ toString c.2.1 ++ ", " ++ toString c.2.2.1
    ++ ", " ++ toString c.2.2.2 ++ ")"

/-- First list is an initial run of the second. -/
def leadsWith : List Char → List Char → Bool
  | [], _ => true
  | _ :: _, [] => false
  | a :: as, b :: bs => a = b && leadsWith as bs

/-- Substring search on character lists, embedding Python's `in` on strings. -/
def containsRun : List Char → List Char → Bool
  | needle, [] => needle.isEmpty
  | needle, c :: rest => leadsWith needle (c :: rest) || containsRun needle rest

/-- Python's `needle in hay` for strings. -/
def pyInStr (needle hay : String) : Bool :=
  containsRun needle.toList hay.toList

/-- Embedding of the `quadrant_name` computation (ocr.py lines 235-243): the
name is recovered by substring-matching `str(quadrant_coords)` — which, the
coordinates being a tuple of integers, never contains a quadrant name. -/
def quadrantName (c : Nat × Nat × Nat × Nat) : String :=
  if pyInStr "top-left" (pyStrTuple c) then "top-left"
  else if pyInStr "top-right" (pyStrTuple c) then "top-right"
  else if pyInStr "bottom-left" (pyStrTuple c) then "bottom-left"
  else if pyInStr "bottom-right" (pyStrTuple c) then "bottom-right"
  else "unknown"

/-- The diagonal-angle window of ocr.py lines 224-226:
`30 < |atan2(dy,dx)|*180/pi < 60 or 120 < ... < 150`, expressed for `dx ≠ 0`
by the equivalent exact condition `tan 30 < |dy|/|dx| < tan 60`, i.e.
`dx^2 < 3*dy^2 ∧ dy^2 < 3*dx^2`. -/
def isDiagAngle (dx dy : Int) : Bool :=
  decide (dx * dx < 3 * (dy * dy)) && decide (dy * dy < 3 * (dx * dx))

/-- One iteration of the contour classification loop (ocr.py lines 199-226),
updating the accumulator `(horizontal, vertical, diagonal, rectangles)`.
Aspect-ratio and area thresholds are the source's constants as exact
rationals. -/
def contourStep (quadArea : Nat) (acc : Nat × Nat × Nat × Nat) (c : PyContour) :
    Nat × Nat × Nat × Nat :=
  let cw := c.rect.2.2.1
  let ch := c.rect.2.2.2
  let ar : ℚ := if ch > 0 then (cw : ℚ) / (ch : ℚ) else 0
  let hl := acc.1
  let vl := acc.2.1
  let dl := acc.2.2.1
  let rc := acc.2.2.2
  let hvr : Nat × Nat × Nat :=
    if ar > 5/2 then (hl + 1, vl, rc)
    else if ar < 2/5 then (hl, vl + 1, rc)
    else if 4/5 < ar ∧ ar < 6/5 ∧ c.area > (quadArea : ℚ) / 10 then (hl, vl, rc + 1)
    else (hl, vl, rc)
  let dl' : Nat :=
    match c.approx with
    | [p1, p2] =>
      let dx := p2.1 - p1.1
      let dy := p2.2 - p1.2
      if dx = 0 then dl
      else if isDiagAngle dx dy then dl + 1 else dl
    | _ => dl
  (hvr.1, hvr.2.1, dl', hvr.2.2)

/-- Feature counts `(horizontal, vertical, diagonal, rectangles)` accumulated
over all contours of a quadrant. -/
def featureCounts (cs : List PyContour) (quadArea : Nat) : Nat × Nat × Nat × Nat :=
  cs.foldl (contourStep quadArea) (0, 0, 0, 0)

/-- Embedding of the classification cascade of `detect_features_in_quadrant`
(ocr.py lines 234-320), taking the extracted feature counts, the number of
contours, the fill ratio, the quadrant pixel sum and the raw quadrant
coordinates (from which the code attempts to recover the quadrant name). -/
def classifyQuadrant (hl vl dl rc nc : Nat) (fr : ℚ) (qsum : Nat)
    (coords : Nat × Nat × Nat × Nat) : Nat :=
  if fr < 2/100 ∨ nc = 0 then 0
  else if hl ≥ 1 ∧ vl = 0 ∧ dl = 0 then 1
  else if dl ≥ 1 ∧ hl = 0 ∧ vl = 0 then
    (if quadrantName coords = "top-right" ∨ quadrantName coords = "bottom-left"
      then 2 else 6)
  else if hl ≥ 1 ∧ dl ≥ 1 then
    (if quadrantName coords = "top-right" ∨ quadrantName coords = "bottom-left"
      then 3 else 7)
  else if hl ≥ 1 ∧ vl ≥ 1 then 4
  else if rc ≥ 1 ∨ fr > 3/10 ∨ nc ≥ 3 then 5
  else if dl ≥ 2 then 8
  else if rc ≥ 1 ∨ fr > 25/100 then 9
  else if vl ≥ 1 then 1
  else if dl ≥ 1 then 2
  else if hl ≥ 1 then 1
  else if fr > 1/10 then 5
  else if qsum > 0 then 1
  else 0

/-- Embedding of `detect_features_in_quadrant` (ocr.py lines 146-320): clamp
the quadrant to the image, bail out to 0 on an empty or near-empty region,
extract contour features, and classify. -/
def detectFeatures (findC : GrayImg → List PyContour) (img : GrayImg)
    (coords : Nat × Nat × Nat × Nat) : Nat :=
  let w := img.width
  let h := img.height
  let x1 := min coords.1 (w - 1)
  let y1 := min coords.2.1 (h - 1)
  let x2 := min coords.2.2.1 w
  let y2 := min coords.2.2.2 h
  if x2 ≤ x1 ∨ y2 ≤ y1 then 0
  else
    let q := cropImg img x1 y1 x2 y2
    if imgSum q < 100 then 0
    else
      let cs := findC q
      if cs.isEmpty then 0
      else
        let quadArea := q.height * q.width
        let counts := featureCounts cs quadArea
        let fr : ℚ := if (quadArea : ℚ) > 0 then (countPos q : ℚ) / (quadArea : ℚ) else 0
        classifyQuadrant counts.1 counts.2.1 counts.2.2.1 counts.2.2.2
          cs.length fr (imgSum q) coords

/-- Embedding of the digit-combination step of `recognize_cistercian_numeral`
(ocr.py lines 340-373) on an already binarized raster: the decoder reads the
units digit from the bottom-right box, tens from top-right, hundreds from
bottom-left and thousands from top-left, and combines them by place value. -/
def recognizeBinary (findC : GrayImg → List PyContour) (img : GrayImg) : Nat :=
  let st := findStemAndQuadrants findC img
  let unitsDigit := detectFeatures findC img st.bottomRightBox
  let tensDigit := detectFeatures findC img st.topRightBox
  let hundredsDigit := detectFeatures findC img st.bottomLeftBox
  let thousandsDigit := detectFeatures findC img st.topLeftBox
  thousandsDigit * 1000 + hundredsDigit * 100 + tensDigit * 10 + unitsDigit

/-!
Preprocessing embedding (`preprocess_image`, ocr.py lines 9-67).  Every step
is an external OpenCV operation; each is modelled by an oracle providing the
output pixel content, while the output dimensions follow OpenCV's contracts:
`cv2.resize(image, dsize)` returns an image of exactly the requested size, and
colour conversion, normalization, blur, thresholding, element-wise `or` and
morphology all preserve the size of their input.
-/

/-- A raw input image: possibly multi-channel (`len(image.shape) > 2`).
`pix y x c` reads channel `c`. -/
structure RawImg where
  height : Nat
  width : Nat
  isColor : Bool
  pix : Nat → Nat → Nat → Nat

/-- Pixel-content oracles for the external OpenCV operations used by
`preprocess_image`. -/
structure CvOps where
  cvtColorPix : RawImg → Nat → Nat → Nat
  resizePix : GrayImg → Nat → Nat → Nat → Nat → Nat
  normalizePix : GrayImg → Nat → Nat → Nat
  blurPix : GrayImg → Nat → Nat → Nat
  otsuPix : GrayImg → Nat → Nat → Nat
  adaptivePix : GrayImg → Nat → Nat → Nat
  morphOpenPix : GrayImg → Nat → Nat → Nat
  morphClosePix : GrayImg → Nat → Nat → Nat
  dilatePix : GrayImg → Nat → Nat → Nat

/-- Embedding of `cv2.resize(src, (dw, dh))`: the output has exactly the
requested dimensions (OpenCV's contract); the interpolated content comes from
the oracle. -/
def cvResize (ops : CvOps) (src : GrayImg) (dw dh : Nat) : GrayImg :=
  ⟨dh, dw, fun y x => ops.resizePix src dw dh y x⟩

/-- A size-preserving OpenCV operation applied through its content oracle. -/
def pointOp (f : GrayImg → Nat → Nat → Nat) (src : GrayImg) : GrayImg :=
  ⟨src.height, src.width, fun y x => f src y x⟩

/-- Embedding of `preprocess_image` (ocr.py lines 9-67): grayscale
conversion if needed, resize to (300, 400), normalize, blur, the two
thresholdings combined with `cv2.bitwise_or` (exact bitwise or on the pixel
values), then open/close morphology and dilation. -/
def preprocessImage (ops : CvOps) (img : RawImg) : GrayImg :=
  let gray : GrayImg :=
    if img.isColor then ⟨img.height, img.width, fun y x => ops.cvtColorPix img y x⟩
    else ⟨img.height, img.width, fun y x => img.pix y x 0⟩
  let resized := cvResize ops gray 300 400
  let normalized := pointOp ops.normalizePix resized
  let blurred := pointOp ops.blurPix normalized
  let binaryOtsu := pointOp ops.otsuPix blurred
  let binaryAdaptive := pointOp ops.adaptivePix blurred
  let binary : GrayImg :=
    ⟨binaryOtsu.height, binaryOtsu.width,
     fun y x => binaryOtsu.pix y x ||| binaryAdaptive.pix y x⟩
  let opened := pointOp ops.morphOpenPix binary
  let closed := pointOp ops.morphClosePix opened
  pointOp ops.dilatePix closed

/-- Embedding of `recognize_cistercian_numeral` (ocr.py lines 322-378):
preprocess the raw input, then segment and classify.  The surrounding
`try/except` only converts exceptions to 0 and has no effect here: every stage
below is total. -/
def recognizeNumeral (ops : CvOps) (findC : GrayImg → List PyContour)
    (img : RawImg) : Nat :=
  recognizeBinary findC (preprocessImage ops img)

/-!
Filesystem effects of the encoder entry points (cistercian_utils.py lines
166-187).  Mutation of the drawing canvas is the encoder's intended output;
any other side effect is reified as an explicit effect trace.
-/

/-- A filesystem side effect. -/
inductive FsEffect
  | makeDirs (path : String)
  | writeFile (path : String)
deriving DecidableEq, Repr

/-- Effects of `save_image_to_file` (cistercian_utils.py lines 166-170):
`os.makedirs('created_numbers', exist_ok=True)` followed by
`cv2.imwrite('created_numbers/' + filename, img)`. -/
def saveImageToFileEffects (filename : String) : List FsEffect :=
  [FsEffect.makeDirs "created_numbers",
   FsEffect.writeFile ("created_numbers/" ++ filename)]

/-- Filesystem effects of `draw_cistercian_symbol` (cistercian_utils.py lines
34-78): none — the function only issues `cv2.line` calls against the supplied
canvas. -/
def drawSymbolFsEffects (number : Int) : List FsEffect := []

/-- Filesystem effects of one `number_to_cistercian_image(number)` call
(cistercian_utils.py lines 172-187): after the range check and the drawing it
calls `save_image_to_file(img, f'cistercian_{number}.png')` before returning
the encoded image. -/
def numberToImageFsEffects (number : Int) : List FsEffect :=
  if number < 0 ∨ number > 9999 then []
  else drawSymbolFsEffects number
    ++ saveImageToFileEffects ("cistercian_" ++ toString number ++ ".png")

/-- Witness for C9 at digit 3 on the canonical canvas anchors. -/
theorem claim9_witness :
    drawDigit 3 150 67 (dirX .topRight) (dirY .topRight)
      = (drawDigit 3 150 67 (dirX .topLeft) (dirY .topLeft)).map (mirrorSeg 150)
    ∧ drawDigit 3 150 333 (dirX .bottomRight) (dirY .bottomRight)
      = (drawDigit 3 150 333 (dirX .bottomLeft) (dirY .bottomLeft)).map (mirrorSeg 150) :=
  claim9_mirror_law 3 (by norm_num) (by norm_num) 150 67 333

/-- Helper: a conditional between two digits at most 9 is at most 9. -/
theorem ite_le9 {c : Prop} [Decidable c] {a b : Nat} (ha : a ≤ 9) (hb : b ≤ 9) :
    (if c then a else b) ≤ 9 := by
  split
  · exact ha
  · exact hb

/-- Every branch of the classification cascade returns a digit at most 9. -/
theorem classifyQuadrant_le (hl vl dl rc nc : Nat) (fr : ℚ) (qsum : Nat)
    (coords : Nat × Nat × Nat × Nat) :
    classifyQuadrant hl vl dl rc nc fr qsum coords ≤ 9 := by
  unfold classifyQuadrant
  repeat first | apply ite_le9 | decide

/-- Every quadrant classification yields a digit at most 9. -/
theorem detectFeatures_le (findC : GrayImg → List PyContour) (img : GrayImg)
    (coords : Nat × Nat × Nat × Nat) :
    detectFeatures findC img coords ≤ 9 := by
  simp only [detectFeatures]
  repeat first | apply ite_le9 | apply classifyQuadrant_le | decide

theorem imgSum_eq_zero (img : GrayImg) (h : ∀ y x, img.pix y x = 0) :
    imgSum img = 0 :=
  Finset.sum_eq_zero fun y _ => Finset.sum_eq_zero fun x _ => h y x

/-- On an all-background raster every quadrant classification is 0: either the
clamped region is degenerate, or its pixel sum 0 is below the emptiness
threshold 100. -/
theorem detectFeatures_blank (findC : GrayImg → List PyContour) (img : GrayImg)
    (h : ∀ y x, img.pix y x = 0) (coords : Nat × Nat × Nat × Nat) :
    detectFeatures findC img coords = 0 := by
  have hz := imgSum_eq_zero
    (cropImg img (min coords.1 (img.width - 1)) (min coords.2.1 (img.height - 1))
      (min coords.2.2.1 img.width) (min coords.2.2.2 img.height))
    (fun y x => h _ _)
  simp only [detectFeatures]
  split_ifs <;> first | rfl | omega

/-- C6: the decoder is total on the binary domain and decoding a blank
(all-background) raster returns 0: every quadrant is empty, so each place
digit falls back to 0. -/
theorem claim6_blank_decode_zero (findC : GrayImg → List PyContour)
    (bin : GrayImg) (hblank : ∀ y x, bin.pix y x = 0) :
    recognizeBinary findC bin = 0 := by
  simp only [recognizeBinary]
  rw [detectFeatures_blank findC bin hblank, detectFeatures_blank findC bin hblank,
      detectFeatures_blank findC bin hblank, detectFeatures_blank findC bin hblank]

/-- The canonical blank binary raster. -/
def blankBin : GrayImg := ⟨400, 300, fun _ _ => 0⟩

/-- Witness for C6 on the concrete 300x400 blank raster with the contour
finder returning no components. -/
theorem claim6_witness : recognizeBinary (fun _ => []) blankBin = 0 :=
  claim6_blank_decode_zero (fun _ => []) blankBin (fun _ _ => rfl)

/-- C7: when there are no foreground components, or the union bounding box is
degenerate (width or height below 20), the segmenter uses the entire raster as
the bounding box and returns, without failing, the stem at the midline and the
four quadrant boxes obtained by splitting that box at its horizontal and
vertical midpoints. -/
theorem claim7_segmenter_fallback (findC : GrayImg → List PyContour) (img : GrayImg)
    (hdeg : findC img = []
      ∨ (boundingRect (allPoints (findC img))).2.2.1 < 20
      ∨ (boundingRect (allPoints (findC img))).2.2.2 < 20) :
    findStemAndQuadrants findC img = fullSplit img.height img.width := by
  unfold findStemAndQuadrants fullSplit
  rcases hcs : findC img with _ | ⟨c, cs⟩
  · simp
  · rw [hcs] at hdeg
    rcases hdeg with h | h
    · simp at h
    · simp [if_pos h]

/-- Witness for C7: a no-component oracle on the blank raster yields the
whole-raster split. -/
theorem claim7_witness :
    findStemAndQuadrants (fun _ => []) blankBin = fullSplit 400 300 :=
  claim7_segmenter_fallback (fun _ => []) blankBin (Or.inl rfl)

/-- C8: for every input image and contour oracle the decoder returns an
integer in [0,9999]: each per-quadrant classification is a digit at most 9 and
the result is the place-value combination
thousands*1000 + hundreds*100 + tens*10 + units of the four quadrant digits
(as the code assigns them). -/
theorem claim8_decode_range (ops : CvOps) (findC : GrayImg → List PyContour)
    (raw : RawImg) :
    recognizeNumeral ops findC raw ≤ 9999
    ∧ (∀ coords, detectFeatures findC (preprocessImage ops raw) coords ≤ 9)
    ∧ recognizeNumeral ops findC raw =
        detectFeatures findC (preprocessImage ops raw)
            (findStemAndQuadrants findC (preprocessImage ops raw)).topLeftBox * 1000
        + detectFeatures findC (preprocessImage ops raw)
            (findStemAndQuadrants findC (preprocessImage ops raw)).bottomLeftBox * 100
        + detectFeatures findC (preprocessImage ops raw)
            (findStemAndQuadrants findC (preprocessImage ops raw)).topRightBox * 10
        + detectFeatures findC (preprocessImage ops raw)
            (findStemAndQuadrants findC (preprocessImage ops raw)).bottomRightBox := by
  refine ⟨?_, fun coords => detectFeatures_le _ _ _, rfl⟩
  have h1 := detectFeatures_le findC (preprocessImage ops raw)
    (findStemAndQuadrants findC (preprocessImage ops raw)).topLeftBox
  have h2 := detectFeatures_le findC (preprocessImage ops raw)
    (findStemAndQuadrants findC (preprocessImage ops raw)).bottomLeftBox
  have h3 := detectFeatures_le findC (preprocessImage ops raw)
    (findStemAndQuadrants findC (preprocessImage ops raw)).topRightBox
  have h4 := detectFeatures_le findC (preprocessImage ops raw)
    (findStemAndQuadrants findC (preprocessImage ops raw)).bottomRightBox
  simp only [recognizeNumeral, recognizeBinary]
  omega

/-- C2: the encoder and the decoder disagree on the place-to-quadrant mapping.
The encoder draws the units digit of 4 as the top-right stroke set (every
non-stem stroke of the render of 4 lies strictly right of the stem and above
the centre line), while for every raster and oracle the decoder's units place
(result mod 10) is the digit read from the bottom-right box and its tens place
is the digit read from the top-right box. -/
theorem claim2_place_quadrant_mismatch :
    (canonicalRender 4 = stemSeg :: segsTR 4 ∧ (segsTR 4).all quadPredTR = true)
    ∧ (∀ (findC : GrayImg → List PyContour) (img : GrayImg),
        recognizeBinary findC img % 10
          = detectFeatures findC img (findStemAndQuadrants findC img).bottomRightBox)
    ∧ (∀ (findC : GrayImg → List PyContour) (img : GrayImg),
        recognizeBinary findC img / 10 % 10
          = detectFeatures findC img (findStemAndQuadrants findC img).topRightBox) := by
  refine ⟨⟨by decide, by decide⟩, ?_, ?_⟩
  · intro findC img
    have h3 := detectFeatures_le findC img (findStemAndQuadrants findC img).topRightBox
    have h4 := detectFeatures_le findC img (findStemAndQuadrants findC img).bottomRightBox
    simp only [recognizeBinary]
    omega
  · intro findC img
    have h3 := detectFeatures_le findC img (findStemAndQuadrants findC img).topRightBox
    have h4 := detectFeatures_le findC img (findStemAndQuadrants findC img).bottomRightBox
    simp only [recognizeBinary]
    omega

/-- Helper: on any coordinate tuple whose recovered quadrant name is
"unknown" (which is every coordinate tuple, their `str` containing no
letters), a feature vector with exactly one diagonal line and no horizontal,
vertical or rectangle features classifies as 6. -/
theorem classify_one_diagonal_unknown (coords : Nat × Nat × Nat × Nat)
    (hn : quadrantName coords = "unknown") :
    classifyQuadrant 0 0 1 0 1 (1/2) 1000 coords = 6 := by
  unfold classifyQuadrant
  rw [hn]
  norm_num
  exact ⟨by decide, by decide⟩

/-- C4: the role-based 2-versus-6 disambiguation is dead code.  On a feature
vector with exactly one diagonal line and no horizontal or vertical lines the
cascade returns 6 for all four quadrant boxes — including bottom-left and
top-right, where the specification requires 2 — because `quadrant_name` is
recovered by substring-matching the `str` of the coordinate tuple and is
therefore always "unknown". -/
theorem claim4_diagonal_role_ignored :
    classifyQuadrant 0 0 1 0 1 (1/2) 1000 (0, 200, 150, 400) = 6
    ∧ classifyQuadrant 0 0 1 0 1 (1/2) 1000 (150, 0, 300, 200) = 6
    ∧ classifyQuadrant 0 0 1 0 1 (1/2) 1000 (0, 0, 150, 200) = 6
    ∧ classifyQuadrant 0 0 1 0 1 (1/2) 1000 (150, 200, 300, 400) = 6 :=
  ⟨classify_one_diagonal_unknown _ rfl, classify_one_diagonal_unknown _ rfl,
   classify_one_diagonal_unknown _ rfl, classify_one_diagonal_unknown _ rfl⟩

/-- C10: preprocessing yields a raster of exactly 300x400 pixels (400 rows,
300 columns) for every input image, colour or grayscale, of any dimensions. -/
theorem claim10_preprocess_dims (ops : CvOps) (img : RawImg) :
    (preprocessImage ops img).height = 400 ∧ (preprocessImage ops img).width = 300 :=
  ⟨rfl, rfl⟩

/-- C5 counterexample: an in-range encode call does change the filesystem —
`number_to_cistercian_image(7)` writes `created_numbers/cistercian_7.png`. -/
theorem claim5_counterexample :
    FsEffect.writeFile "created_numbers/cistercian_7.png" ∈ numberToImageFsEffects 7 := by
  decide

/-- C5 (amended): `draw_cistercian_symbol` has no side effect beyond the
supplied canvas, but the encode entry point `number_to_cistercian_image`
additionally creates the `created_numbers` directory and writes the rendered
PNG there on every successful call. -/
theorem claim5_encode_fs_effects (z : Int) :
    drawSymbolFsEffects z = []
    ∧ (0 ≤ z → z ≤ 9999 →
        numberToImageFsEffects z =
          [FsEffect.makeDirs "created_numbers",
           FsEffect.writeFile ("created_numbers/" ++ ("cistercian_" ++ toString z ++ ".png"))]) := by
  refine ⟨rfl, fun h1 h2 => ?_⟩
  unfold numberToImageFsEffects
  rw [if_neg (by omega)]
  rfl

/-- Witness for the amended C5 at the concrete input 7. -/
theorem claim5_witness :
    drawSymbolFsEffects 7 = []
    ∧ numberToImageFsEffects 7 =
        [FsEffect.makeDirs "created_numbers",
         FsEffect.writeFile ("created_numbers/" ++ ("cistercian_" ++ toString (7 : Int) ++ ".png"))] :=
  ⟨(claim5_encode_fs_effects 7).1,
   (claim5_encode_fs_effects 7).2 (by norm_num) (by norm_num)⟩

end Cistercian
